import Mathlib

/-!
Shallow embedding of the classification/decision engine of the
`mail_ai_local` repository (files `ai_decider.py` and `mail_ai_local.py`),
together with proofs of the specification claims about it.

Python strings are modelled as Lean `String`; values that may be Python
`None` are modelled as `Option`; SQL `NULL` columns are `Option String`;
Python floats are modelled as exact rationals `ℚ` (every numeric literal the
claims exercise is decimal, and the code only parses, stores and compares
confidences, so the rational model preserves all comparisons that matter);
Python exceptions caught by the per-message handler are modelled as `none`
results.
-/

namespace MailAI

/-! ### Characters used in the regular expressions of the source

Named characters so that quote and brace characters never appear as
character literals. -/

def qmark : Char := Char.ofNat 34

def obrace : Char := Char.ofNat 123

def cbrace : Char := Char.ofNat 125

def qs : String := String.mk [qmark]

/-- Python `str.lower` restricted to ASCII and the Latin-1 letters that occur
in this code base (the full Unicode case map is not needed by any rule
literal or claim input). -/
def pyLowerChar (c : Char) : Char :=
  let n := c.toNat
  if 65 ≤ n ∧ n ≤ 90 then Char.ofNat (n + 32)
  else if 192 ≤ n ∧ n ≤ 222 ∧ n ≠ 215 then Char.ofNat (n + 32)
  else c

def py_lower (s : String) : String := String.mk (s.toList.map pyLowerChar)

/-- The whitespace class used by Python `str.strip` and the regex `\s`:
ASCII whitespace plus NEL and NBSP (the further Unicode space code points do
not occur in any rule literal or claim input). -/
def pySpace (c : Char) : Bool :=
  c.toNat = 32 || c.toNat = 9 || c.toNat = 10 || c.toNat = 13 ||
  c.toNat = 11 || c.toNat = 12 || c.toNat = 133 || c.toNat = 160

/-- Python `str.strip()` with no argument: drop leading and trailing
whitespace. -/
def pyStrip (s : String) : String :=
  String.mk (((s.toList.dropWhile pySpace).reverse.dropWhile pySpace).reverse)

/-- Python slicing `s[:n]` for `n ≥ 0`: the first `n` characters. -/
def pySlice (s : String) (n : ℕ) : String := String.mk (s.toList.take n)

/-- Models `s.split(sep)` on a single-character separator, Python semantics:
splitting the empty string gives one empty piece. -/
def splitOnChar (sep : Char) : List Char → List (List Char)
  | [] => [[]]
  | c :: rest =>
    if c = sep then [] :: splitOnChar sep rest
    else
      match splitOnChar sep rest with
      | h :: t => (c :: h) :: t
      | [] => [[c]]

def pySplit (s : String) (sep : Char) : List String := (splitOnChar sep s.toList).map String.mk

/-- Models `sep.join(l)`. -/
def joinSep (sep : String) : List String → String
  | [] => ""
  | [x] => x
  | x :: y :: rest => x ++ sep ++ joinSep sep (y :: rest)

/-- Does `cs` start with `needle`? -/
def leadsWith : List Char → List Char → Bool
  | [], _ => true
  | _ :: _, [] => false
  | a :: as, b :: bs => a = b && leadsWith as bs

/-- Case-insensitive variant (regex flag `re.I`). -/
def leadsWithCI : List Char → List Char → Bool
  | [], _ => true
  | _ :: _, [] => false
  | a :: as, b :: bs => pyLowerChar a = pyLowerChar b && leadsWithCI as bs

/-- Does `hay` contain `needle` as a contiguous sublist?  This is Python's
substring operator `needle in hay`. -/
def hasSub (needle : List Char) : List Char → Bool
  | [] => leadsWith needle []
  | hay@(_ :: rest) => leadsWith needle hay || hasSub needle rest

def strContains (hay needle : String) : Bool := hasSub needle.toList hay.toList

/-- Models `re.search` driver: try a match at every position, left to right, and
return the first success (including the empty suffix, as `re.search`
does). -/
def scanFirst {α : Type} (f : List Char → Option α) : List Char → Option α
  | [] => f []
  | cs@(_ :: rest) =>
    match f cs with
    | some a => some a
    | none => scanFirst f rest

/-- Is there any position at which `f` holds?  Boolean `re.search` for the
hand-compiled rule patterns. -/
def anyPos (f : List Char → Bool) : List Char → Bool
  | [] => f []
  | cs@(_ :: rest) => f cs || anyPos f rest

def digitsVal (ds : List Char) : ℕ :=
  ds.foldl (fun a c => a * 10 + (c.toNat - 48)) 0

/-- Python `float(s)` on a string: strip whitespace, optional sign, then
digits with an optional fraction and exponent.  Returns `none` when Python
would raise `ValueError`.  (Underscore separators and the non-finite
literals `inf`/`nan` are not modelled; they occur in no rule, test or claim
input.) -/
def pyFloatOfString (s : String) : Option ℚ :=
  let cs := (s.toList.dropWhile pySpace).reverse.dropWhile pySpace |>.reverse
  let (sgn, cs1) : ℤ × List Char :=
    match cs with
    | '-' :: r => (-1, r)
    | '+' :: r => (1, r)
    | _ => (1, cs)
  let intDs := cs1.takeWhile (·.isDigit)
  let cs2 := cs1.drop intDs.length
  let (fracDs, cs3) : List Char × List Char :=
    match cs2 with
    | '.' :: r => (r.takeWhile (·.isDigit), r.drop (r.takeWhile (·.isDigit)).length)
    | _ => ([], cs2)
  if intDs.isEmpty ∧ fracDs.isEmpty then none
  else
    let mant : ℤ := sgn * ((digitsVal intDs * 10 ^ fracDs.length + digitsVal fracDs : ℕ) : ℤ)
    match cs3 with
    | [] => some (mkRat mant (10 ^ fracDs.length))
    | 'e' :: r | 'E' :: r =>
      let (eneg, r1) : Bool × List Char :=
        match r with
        | '+' :: r2 => (false, r2)
        | '-' :: r2 => (true, r2)
        | _ => (false, r)
      let eds := r1.takeWhile (·.isDigit)
      if eds.isEmpty ∨ ¬(r1.drop eds.length).isEmpty then none
      else if eneg then some (mkRat mant (10 ^ (fracDs.length + digitsVal eds)))
      else some (mkRat (mant * (10 : ℤ) ^ digitsVal eds) (10 ^ fracDs.length))
    | _ => none

/-- Render a rational with a finite decimal expansion the way Python's
`str()` renders the corresponding float (`0.7` ↦ `"0.7"`, `1` ↦ `"1.0"`).
Thresholds come from the command line via `float(...)`, so they always have
such an expansion; other denominators fall back to the raw fraction. -/
def floatRepr (q : ℚ) : String :=
  let sgn := if q < 0 then "-" else ""
  let n := q.num.natAbs
  let d := q.den
  if d = 1 then sgn ++ toString n ++ ".0"
  else
    match (List.range 40).find? (fun k => decide (0 < k ∧ (10 : ℕ) ^ k % d = 0)) with
    | some k =>
      let scaled := n * ((10 : ℕ) ^ k / d)
      let ip := scaled / 10 ^ k
      let fp := scaled % 10 ^ k
      let fs := toString fp
      sgn ++ toString ip ++ "." ++ String.mk (List.replicate (k - fs.length) '0') ++ fs
    | none => sgn ++ toString n ++ "/" ++ toString d

/-! ### JSON values and a strict parser

`ai_decider.decide_ai` first feeds the oracle response to `json.loads`; the
salvage path also retries `json.loads` on a brace-balanced chunk.  The
parser below implements the JSON grammar that `json.loads` accepts: one
value, surrounded only by JSON whitespace, with strict strings and numbers.
(Two approximations, unreachable from any claim input: `\u` escapes are
decoded code point by code point without surrogate pairing, and numbers are
kept as exact rationals rather than rounded to binary floats.) -/

inductive JVal where
  | jnull : JVal
  | jbool : Bool → JVal
  | jnum : ℚ → JVal
  | jstr : String → JVal
  | jarr : List JVal → JVal
  | jobj : List (String × JVal) → JVal

/-- The whitespace `json.loads` skips between tokens. -/
def jWs (c : Char) : Bool := c = ' ' || c = '\t' || c = '\n' || c = '\r'

def hexVal (c : Char) : Option ℕ :=
  let n := c.toNat
  if 48 ≤ n ∧ n ≤ 57 then some (n - 48)
  else if 97 ≤ n ∧ n ≤ 102 then some (n - 87)
  else if 65 ≤ n ∧ n ≤ 70 then some (n - 55)
  else none

/-- Body of a JSON string after the opening quote: returns the decoded
characters and the remainder after the closing quote. -/
def jStrBody : ℕ → List Char → Option (List Char × List Char)
  | 0, _ => none
  | _ + 1, [] => none
  | n + 1, c :: rest =>
    if c = qmark then some ([], rest)
    else if c = '\\' then
      match rest with
      | [] => none
      | e :: r2 =>
        if e = qmark then (jStrBody n r2).map (fun p => (qmark :: p.1, p.2))
        else if e = '\\' then (jStrBody n r2).map (fun p => ('\\' :: p.1, p.2))
        else if e = '/' then (jStrBody n r2).map (fun p => ('/' :: p.1, p.2))
        else if e = 'b' then (jStrBody n r2).map (fun p => (Char.ofNat 8 :: p.1, p.2))
        else if e = 'f' then (jStrBody n r2).map (fun p => (Char.ofNat 12 :: p.1, p.2))
        else if e = 'n' then (jStrBody n r2).map (fun p => ('\n' :: p.1, p.2))
        else if e = 'r' then (jStrBody n r2).map (fun p => ('\r' :: p.1, p.2))
        else if e = 't' then (jStrBody n r2).map (fun p => ('\t' :: p.1, p.2))
        else if e = 'u' then
          match r2 with
          | h1 :: h2 :: h3 :: h4 :: r3 =>
            match hexVal h1, hexVal h2, hexVal h3, hexVal h4 with
            | some a, some b, some c2, some d =>
              (jStrBody n r3).map
                (fun p => (Char.ofNat (a * 4096 + b * 256 + c2 * 16 + d) :: p.1, p.2))
            | _, _, _, _ => none
          | _ => none
        else none
    else if c.toNat < 32 then none
    else (jStrBody n rest).map (fun p => (c :: p.1, p.2))

/-- A JSON number at the head of the input, per the grammar `json.loads`
uses: `-?(0|[1-9][0-9]*)(\.[0-9]+)?([eE][+-]?[0-9]+)?`.  Longest valid
match; anything after it is left for the caller. -/
def jNumAt (cs : List Char) : Option (ℚ × List Char) :=
  let (neg, cs1) : Bool × List Char :=
    match cs with
    | '-' :: r => (true, r)
    | _ => (false, cs)
  let intDs := cs1.takeWhile (·.isDigit)
  if intDs.isEmpty then none
  else if 1 < intDs.length ∧ intDs.headD '1' = '0' then none
  else
    let cs2 := cs1.drop intDs.length
    let (fracDs, cs3) : List Char × List Char :=
      match cs2 with
      | '.' :: r =>
        let ds := r.takeWhile (·.isDigit)
        if ds.isEmpty then ([], cs2) else (ds, r.drop ds.length)
      | _ => ([], cs2)
    let (ex, cs4) : ℤ × List Char :=
      match cs3 with
      | 'e' :: r | 'E' :: r =>
        let (esgn, r1) : ℤ × List Char :=
          match r with
          | '+' :: r2 => (1, r2)
          | '-' :: r2 => (-1, r2)
          | _ => (1, r)
        let eds := r1.takeWhile (·.isDigit)
        if eds.isEmpty then (0, cs3) else (esgn * (digitsVal eds : ℤ), r1.drop eds.length)
      | _ => (0, cs3)
    let mant : ℤ :=
      (if neg then -1 else 1) * ((digitsVal intDs * 10 ^ fracDs.length + digitsVal fracDs : ℕ) : ℤ)
    let q : ℚ :=
      if ex < 0 then mkRat mant (10 ^ (fracDs.length + (-ex).toNat))
      else mkRat (mant * (10 : ℤ) ^ ex.toNat) (10 ^ fracDs.length)
    some (q, cs4)

mutual

/-- One JSON value at the head of the input (after skipping whitespace). -/
def parseJVal : ℕ → List Char → Option (JVal × List Char)
  | 0, _ => none
  | n + 1, cs0 =>
    let cs := cs0.dropWhile jWs
    match cs with
    | [] => none
    | c :: rest =>
      if c = obrace then
        match rest.dropWhile jWs with
        | d :: r1 =>
          if d = cbrace then some (JVal.jobj [], r1)
          else
            match parseMembers n rest with
            | some (l, r2) => some (JVal.jobj l, r2)
            | none => none
        | [] => none
      else if c = '[' then
        match rest.dropWhile jWs with
        | ']' :: r1 => some (JVal.jarr [], r1)
        | _ =>
          match parseItems n rest with
          | some (l, r2) => some (JVal.jarr l, r2)
          | none => none
      else if c = qmark then
        match jStrBody (rest.length + 1) rest with
        | some (body, r1) => some (JVal.jstr (String.mk body), r1)
        | none => none
      else if leadsWith "true".toList cs then some (JVal.jbool true, cs.drop 4)
      else if leadsWith "false".toList cs then some (JVal.jbool false, cs.drop 5)
      else if leadsWith "null".toList cs then some (JVal.jnull, cs.drop 4)
      else
        match jNumAt cs with
        | some (q, r1) => some (JVal.jnum q, r1)
        | none => none

/-- The comma-separated items of a non-empty JSON array, up to and including
the closing bracket. -/
def parseItems : ℕ → List Char → Option (List JVal × List Char)
  | 0, _ => none
  | n + 1, cs =>
    match parseJVal n cs with
    | none => none
    | some (v, r) =>
      match r.dropWhile jWs with
      | ',' :: r2 =>
        match parseItems n r2 with
        | some (l, r3) => some (v :: l, r3)
        | none => none
      | ']' :: r2 => some ([v], r2)
      | _ => none

/-- The members of a non-empty JSON object, up to and including the closing
brace. -/
def parseMembers : ℕ → List Char → Option (List (String × JVal) × List Char)
  | 0, _ => none
  | n + 1, cs =>
    match cs.dropWhile jWs with
    | c :: r =>
      if c = qmark then
        match jStrBody (r.length + 1) r with
        | none => none
        | some (kcs, r2) =>
          match r2.dropWhile jWs with
          | ':' :: r4 =>
            match parseJVal n r4 with
            | none => none
            | some (v, r5) =>
              match r5.dropWhile jWs with
              | ',' :: r7 =>
                match parseMembers n r7 with
                | some (l, r8) => some ((String.mk kcs, v) :: l, r8)
                | none => none
              | d :: r7 =>
                if d = cbrace then some ([(String.mk kcs, v)], r7) else none
              | [] => none
          | _ => none
      else none
    | [] => none

end

/-- Python `json.loads`: parse exactly one JSON value, allowing only
whitespace around it; anything else raises (modelled as `none`). -/
def jsonLoads (s : String) : Option JVal :=
  match parseJVal (2 * s.length + 4) s.toList with
  | none => none
  | some (v, rest) => if (rest.dropWhile jWs).isEmpty then some v else none

/-! ### The salvage parser (`ai_decider.salvage_json`)

Hand-compiled matchers for the four tolerant patterns of the fallback
stage.  Each implements `re.search` of the corresponding pattern (flags
`re.I | re.S`): the scan tries every position left to right; at a position
the key literal (with its quotes) is compared case-insensitively, `\s*` is
a greedy whitespace skip (backtracking cannot help because the next pattern
characters are never whitespace), and the captures are the greedy character
runs of the original character classes. -/

/-- Match `"key"\s*:\s*"([^"]+)"` at the head of the input and return the
capture. -/
def quotedValAt (key : String) (cs : List Char) : Option String := do
  let needle := (qs ++ key ++ qs).toList
  if leadsWithCI needle cs then
    let cs1 := (cs.drop needle.length).dropWhile pySpace
    match cs1 with
    | ':' :: cs2 =>
      match cs2.dropWhile pySpace with
      | q :: cs3 =>
        if q = qmark then
          let v := cs3.takeWhile (· ≠ qmark)
          if v.isEmpty then none
          else
            match cs3.drop v.length with
            | q2 :: _ => if q2 = qmark then some (String.mk v) else none
            | [] => none
        else none
      | [] => none
    | _ => none
  else none

/-- Match `"key"\s*:\s*([0-9.]+)` at the head of the input and return the
capture. -/
def numValAt (key : String) (cs : List Char) : Option String := do
  let needle := (qs ++ key ++ qs).toList
  if leadsWithCI needle cs then
    let cs1 := (cs.drop needle.length).dropWhile pySpace
    match cs1 with
    | ':' :: cs2 =>
      let cs3 := cs2.dropWhile pySpace
      let v := cs3.takeWhile (fun c => c.isDigit || c = '.')
      if v.isEmpty then none else some (String.mk v)
    | _ => none
  else none

/-- Match `"key"\s*:\s*\[([^\]]*)\]` at the head of the input and return the
raw bracket contents. -/
def listValAt (key : String) (cs : List Char) : Option String := do
  let needle := (qs ++ key ++ qs).toList
  if leadsWithCI needle cs then
    let cs1 := (cs.drop needle.length).dropWhile pySpace
    match cs1 with
    | ':' :: cs2 =>
      match cs2.dropWhile pySpace with
      | '[' :: cs3 =>
        let v := cs3.takeWhile (· ≠ ']')
        match cs3.drop v.length with
        | ']' :: _ => some (String.mk v)
        | _ => none
      | _ => none
    | _ => none
  else none

/-- Models `re.findall(r'"([^"]+)"', raw)`: all non-overlapping quoted runs. -/
def findAllQuotedGo : ℕ → List Char → List String
  | 0, _ => []
  | _ + 1, [] => []
  | n + 1, c :: rest =>
    if c = qmark then
      let v := rest.takeWhile (· ≠ qmark)
      if v.isEmpty then findAllQuotedGo n rest
      else
        match rest.drop v.length with
        | q2 :: r2 => if q2 = qmark then String.mk v :: findAllQuotedGo n r2 else findAllQuotedGo n rest
        | [] => findAllQuotedGo n rest
    else findAllQuotedGo n rest

def findAllQuoted (cs : List Char) : List String := findAllQuotedGo cs.length cs

/-- Models `"decision"` via the quoted-value pattern, lower-cased on extraction
(`m.group(1).lower()`). -/
def salvDecision (t : String) : Option String :=
  (scanFirst (quotedValAt "decision") t.toList).map py_lower

/-- Models `"confidence"` via the numeric pattern, `float(...)`-parsed; an
unparseable capture is silently discarded (`except: pass`). -/
def salvConfidence (t : String) : Option ℚ :=
  (scanFirst (numValAt "confidence") t.toList).bind pyFloatOfString

/-- Models `"summary"` via the quoted-value pattern. -/
def salvSummary (t : String) : Option String :=
  scanFirst (quotedValAt "summary") t.toList

/-- Models `"category"` via the bracketed-list pattern, split into its quoted
elements. -/
def salvCategory (t : String) : Option (List String) :=
  (scanFirst (listValAt "category") t.toList).map (fun raw => findAllQuoted raw.toList)

/-- The entries assembled by the fallback stage of `salvage_json`, in the
insertion order of the source (decision, confidence, summary, category). -/
def tolerant_list (t : String) : List (String × JVal) :=
  (match salvDecision t with
   | some d => [("decision", JVal.jstr d)]
   | none => []) ++
  (match salvConfidence t with
   | some q => [("confidence", JVal.jnum q)]
   | none => []) ++
  (match salvSummary t with
   | some s => [("summary", JVal.jstr s)]
   | none => []) ++
  (match salvCategory t with
   | some xs => [("category", JVal.jarr (xs.map JVal.jstr))]
   | none => [])

/-- The dict assembled by the fallback stage: `return data if data else
None`. -/
def tolerant_fields (t : String) : Option JVal :=
  if (tolerant_list t).isEmpty then none else some (JVal.jobj (tolerant_list t))

/-- Models `re.search(r'\{.*', resp_text, flags=re.S)`: everything from the first
opening brace to the end of the text. -/
def braceChunk (s : String) : Option String :=
  let cs := s.toList
  let pre := cs.takeWhile (· ≠ obrace)
  if pre.length = cs.length then none else some (String.mk (cs.drop pre.length))

/-- Append the missing closing braces when the chunk has fewer `}` than
`{`. -/
def balanceBraces (chunk : String) : String :=
  let ob := chunk.toList.count obrace
  let cb := chunk.toList.count cbrace
  if cb < ob then chunk ++ String.mk (List.replicate (ob - cb) cbrace) else chunk

/-- Models `ai_decider.salvage_json`: strict parse of the brace-balanced chunk
first, then the per-field tolerant patterns over the whole text; `None`
when the text is empty or nothing was recovered. -/
def salvage_json (resp_text : String) : Option JVal :=
  if resp_text = "" then none
  else
    match braceChunk resp_text with
    | some chunk =>
      match jsonLoads (balanceBraces chunk) with
      | some v => some v
      | none => tolerant_fields resp_text
    | none => tolerant_fields resp_text

/-! ### User override rules (`ai_decider.USER_OVERRIDE_RULES`)

A rule stores the two regex matchers as total boolean functions of the
(already lower-cased) sender and subject, exactly what `re.search` with a
fixed valid pattern is.  Each concrete rule below hand-compiles its regex;
`.*` always matches, an unanchored literal is a substring test, `^...$` is
an exact-string test, and the finite character classes `[ée]`/`s?`/`\s?`
are expanded into the corresponding disjunctions. -/

structure OverrideRule where
  fromMatch : String → Bool
  subjMatch : String → Bool
  decision : String
  reason : String

/-- Models `{"from_rx": r"@quora\.com", "subj_rx": r".*", ...}` -/
def rule_quora : OverrideRule :=
  { fromMatch := fun f => strContains f "@quora.com"
    subjMatch := fun _ => true
    decision := "delete", reason := "rule: quora digest" }

/-- Models `@accounts\.google\.com` / `(alerte de s[ée]curit[ée]|security alert)` -/
def rule_google_security : OverrideRule :=
  { fromMatch := fun f => strContains f "@accounts.google.com"
    subjMatch := fun s =>
      strContains s "alerte de securite" || strContains s "alerte de securité" ||
      strContains s "alerte de sécurite" || strContains s "alerte de sécurité" ||
      strContains s "security alert"
    decision := "delete", reason := "rule: google security alert" }

/-- Models `^service@paypal\.fr$` / `(connexion depuis un nouvel appareil|new device|nouvel appareil)` -/
def rule_paypal : OverrideRule :=
  { fromMatch := fun f => f = "service@paypal.fr"
    subjMatch := fun s =>
      strContains s "connexion depuis un nouvel appareil" ||
      strContains s "new device" || strContains s "nouvel appareil"
    decision := "delete", reason := "rule: paypal new device" }

/-- Models `@myfox\.me|@myfox\.` / `.*` -/
def rule_myfox : OverrideRule :=
  { fromMatch := fun f => strContains f "@myfox.me" || strContains f "@myfox."
    subjMatch := fun _ => true
    decision := "delete", reason := "rule: myfox spam" }

/-- Models `@linkedin\.com` / `.*` -/
def rule_linkedin : OverrideRule :=
  { fromMatch := fun f => strContains f "@linkedin.com"
    subjMatch := fun _ => true
    decision := "delete", reason := "rule: linkedin spam" }

/-- Models `^account@twitch\.tv$` / `.*` -/
def rule_twitch : OverrideRule :=
  { fromMatch := fun f => f = "account@twitch.tv"
    subjMatch := fun _ => true
    decision := "delete", reason := "rule: twitch account" }

/-- Models `^transaction@notice\.aliexpress\.com$` / `.*` -/
def rule_aliexpress : OverrideRule :=
  { fromMatch := fun f => f = "transaction@notice.aliexpress.com"
    subjMatch := fun _ => true
    decision := "delete", reason := "rule: aliexpress transaction" }

/-- Models `mailers?p\d+` at some position: `mailer`, optional `s`, `p`, a digit. -/
def mailerspAt (cs : List Char) : Bool :=
  if leadsWith "mailer".toList cs then
    match cs.drop 6 with
    | 's' :: 'p' :: d :: _ => d.isDigit
    | 'p' :: d :: _ => d.isDigit
    | _ => false
  else false

/-- Models `(newsletter|news\.|mailer|mailers?p\d+|email\.)` / `.*` -/
def rule_generic_newsletter : OverrideRule :=
  { fromMatch := fun f =>
      strContains f "newsletter" || strContains f "news." || strContains f "mailer" ||
      anyPos mailerspAt f.toList || strContains f "email."
    subjMatch := fun _ => true
    decision := "delete", reason := "rule: generic newsletter sender" }

/-- Models `bon\s?plan` at some position. -/
def bonPlanAt (cs : List Char) : Bool :=
  if leadsWith "bon".toList cs then
    match cs.drop 3 with
    | c :: rest => leadsWith "plan".toList (c :: rest) || (pySpace c && leadsWith "plan".toList rest)
    | [] => false
  else false

/-- Models `.*` / `(newsletter|promo|promotion|ventes? priv[ée]es?|bon\s?plan|r[ée]duction|remise|offre|deal|soldes?|flash sale|discount|% off)` -/
def rule_promo_subject : OverrideRule :=
  { fromMatch := fun _ => true
    subjMatch := fun s =>
      strContains s "newsletter" || strContains s "promo" || strContains s "promotion" ||
      strContains s "vente privee" || strContains s "vente privée" ||
      strContains s "ventes privee" || strContains s "ventes privée" ||
      anyPos bonPlanAt s.toList ||
      strContains s "reduction" || strContains s "réduction" ||
      strContains s "remise" || strContains s "offre" || strContains s "deal" ||
      strContains s "solde" || strContains s "flash sale" || strContains s "discount" ||
      strContains s "% off"
    decision := "delete", reason := "rule: promo subject" }

def USER_OVERRIDE_RULES : List OverrideRule :=
  [rule_quora, rule_google_security, rule_paypal, rule_myfox, rule_linkedin,
   rule_twitch, rule_aliexpress, rule_generic_newsletter, rule_promo_subject]

/-- The `for rule in USER_OVERRIDE_RULES` loop: first rule whose sender and
subject patterns both match wins; no match leaves the current decision
unchanged with no override reason. -/
def scanRules : List OverrideRule → String → String → String → String × Option String
  | [], _, _, curr => (curr, none)
  | r :: rest, f, s, curr =>
    if r.fromMatch f && r.subjMatch s then (r.decision, some r.reason)
    else scanRules rest f s curr

/-- Models `ai_decider.apply_user_overrides`, parameterised by the rule list (the
source reads the module-level `USER_OVERRIDE_RULES`): lower-case the
inputs, short-circuit on a newsletter/promotion category text, otherwise
scan the ordered rule list. -/
def applyUserOverridesWith (rules : List OverrideRule) (from_addr subject : Option String)
    (curr_decision category_text : String) : String × Option String :=
  if strContains (py_lower category_text) "newsletter" ||
     strContains (py_lower category_text) "promotion" ||
     strContains (py_lower category_text) "promotions" then
    ("delete", some "rule: ia category=promo/newsletter")
  else
    scanRules rules (py_lower (from_addr.getD "")) (py_lower (subject.getD "")) curr_decision

def apply_user_overrides (from_addr subject : Option String)
    (curr_decision category_text : String) : String × Option String :=
  applyUserOverridesWith USER_OVERRIDE_RULES from_addr subject curr_decision category_text

/-! ### The decision resolver (`ai_decider.decide_ai`, per message) -/

/-- The confidence gate of `decide_ai` (lines 203-205): a `delete` whose
confidence is strictly below the caller-supplied threshold is downgraded to
`archive` and the downgrade, with the threshold value, is appended to the
reason. -/
def conf_gate (decision : String) (conf minConf : ℚ) (reason : String) : String × String :=
  if decision = "delete" ∧ conf < minConf then
    ("archive", pyStrip (reason ++ " | downgraded: conf<" ++ floatRepr minConf))
  else (decision, reason)

/-- Python truthiness of a JSON value (`if data:`, `x or default`). -/
def jTruthy : JVal → Bool
  | .jnull => false
  | .jbool b => b
  | .jnum q => q != 0
  | .jstr s => s != ""
  | .jarr xs => !xs.isEmpty
  | .jobj l => !l.isEmpty

/-- Models `dict.get(k)` on the parse result; Python dicts keep the last value for
a duplicated key. -/
def objGet (l : List (String × JVal)) (k : String) : Option JVal :=
  l.foldl (fun acc kv => if kv.1 = k then some kv.2 else acc) none

/-- Models `data.get(k) or dflt`. -/
def pyGetOr (l : List (String × JVal)) (k : String) (dflt : JVal) : JVal :=
  match objGet l k with
  | some v => if jTruthy v then v else dflt
  | none => dflt

/-- Models `.lower()` on a value: defined for strings only; anything else raises
`AttributeError` (modelled as `none`, caught by the per-message handler). -/
def pyLowerAttr : JVal → Option String
  | .jstr s => some (py_lower s)
  | _ => none

/-- Models `v[:n]` where the result is used as a string: defined for strings only;
anything else raises (modelled as `none`). -/
def pySliceAttr (n : ℕ) : JVal → Option String
  | .jstr s => some (pySlice s n)
  | _ => none

/-- Models `float(v)`: numbers and parseable strings (and booleans) convert;
anything else raises (modelled as `none`). -/
def pyFloatCast : JVal → Option ℚ
  | .jnum q => some q
  | .jstr s => pyFloatOfString s
  | .jbool b => some (if b then mkRat 1 1 else mkRat 0 1)
  | _ => none

/-- Models `str(v)` as used on the members of the category list; the claims only
exercise string members, rendered verbatim.  (Numeric members are rendered
by `floatRepr` and containers by a placeholder: an approximation of the
Python `str`, reachable only from category lists holding non-strings.) -/
def pyStr : JVal → String
  | .jstr s => s
  | .jnum q => floatRepr q
  | .jbool true => "True"
  | .jbool false => "False"
  | .jnull => "None"
  | .jarr _ => "[...]"
  | .jobj _ => String.mk [obrace, '.', '.', '.', cbrace]

/-- The `(decision, conf, reason, cat, summ)` tuple extracted from a usable
parse (`decide_ai` lines 190-200). -/
structure Fields where
  decision : String
  conf : ℚ
  reason : String
  cat : String
  summ : String
deriving DecidableEq

def defaultFields : Fields :=
  { decision := "archive", conf := mkRat 1 2, reason := "fallback", cat := "", summ := "" }

/-- Field extraction from a truthy parsed dict (`decide_ai` lines 191-200);
`none` models an exception escaping to the per-message handler (for
example `.lower()` on a non-string decision). -/
def extract_fields (l : List (String × JVal)) : Option Fields := do
  let d1 ← pyLowerAttr (pyGetOr l "decision" (.jstr "archive"))
  let decision := if d1 = "keep" ∨ d1 = "archive" ∨ d1 = "delete" then d1 else "archive"
  let conf : ℚ :=
    match pyFloatCast (pyGetOr l "confidence" (.jnum (mkRat 1 2))) with
    | some q => q
    | none => mkRat 1 2
  let reason ← pySliceAttr 300 (pyGetOr l "reason" (.jstr ""))
  let catv :=
    match pyGetOr l "category" (.jarr []) with
    | .jstr s => JVal.jarr [.jstr s]
    | x => x
  let cat ←
    match catv with
    | .jarr xs => some (pySlice (joinSep ", " (xs.map pyStr)) 120)
    | .jobj kvs => some (pySlice (joinSep ", " (kvs.map (·.1))) 120)
    | _ => none
  let summ ← pySliceAttr 1000 (pyGetOr l "summary" (.jstr ""))
  some { decision := decision, conf := conf, reason := reason, cat := cat, summ := summ }

/-- Models `try: data = json.loads(resp) except: data = salvage_json(resp)`. -/
def parse_response (resp : String) : Option JVal :=
  match jsonLoads resp with
  | some v => some v
  | none => salvage_json resp

/-- Models `if data: ...` with the defaults of line 179 when the parse produced
nothing usable, and the exception path (`none`) when field extraction
raises. -/
def fields_of (data : Option JVal) : Option Fields :=
  match data with
  | none => some defaultFields
  | some v =>
    if jTruthy v then
      match v with
      | .jobj l => extract_fields l
      | _ => none
    else some defaultFields

/-- The row the `UPDATE` statement persists for one message: decision,
reason, confidence, the category text merged into `auto_labels`, and the
summary (written only when non-empty — the two `UPDATE` variants of lines
218-223). -/
structure PersistedRow where
  decision : String
  reason : String
  conf : ℚ
  cat : String
  summ : Option String
deriving DecidableEq

/-- Lines 210-212 of `decide_ai`: the override reason is appended (and the
result stripped) only when the override is truthy and actually changed the
decision.  `g` is the confidence-gate result, `a` the override result. -/
def finish_reason (g : String × String) (a : String × Option String) : String :=
  match a.2 with
  | some o => if o ≠ "" ∧ g.1 ≠ a.1 then pyStrip (g.2 ++ " | " ++ o) else g.2
  | none => g.2

/-- Lines 202-223 of `decide_ai`: confidence gate, then user overrides,
then the reason append when an override changed the decision. -/
def finish_row (frm sub : Option String) (minConf : ℚ) (f : Fields) : PersistedRow :=
  { decision := (apply_user_overrides frm sub (conf_gate f.decision f.conf minConf f.reason).1 f.cat).1
    reason := finish_reason (conf_gate f.decision f.conf minConf f.reason)
      (apply_user_overrides frm sub (conf_gate f.decision f.conf minConf f.reason).1 f.cat)
    conf := f.conf
    cat := f.cat
    summ := if f.summ = "" then none else some f.summ }

/-- The handling of one message inside the `decide_ai` loop.  `oracle` is
the outcome of `run_ollama`: `some resp` when a response arrived, `none`
when the call raised after its retries.  A `none` result means no `UPDATE`
ran for this message (the exception is caught at message granularity and
the loop continues). -/
def process_message (oracle : Option String) (frm sub : Option String) (minConf : ℚ) :
    Option PersistedRow :=
  match oracle with
  | none => none
  | some resp =>
    match fields_of (parse_response resp) with
    | none => none
    | some f => some (finish_row frm sub minConf f)

/-- Models `ai_decider.run_ollama` with its fixed `tries = 2`: return the first
successful attempt; when every attempt fails the last exception is
re-raised (`none`).  `attempt i` is the outcome of the `i`-th POST to the
oracle endpoint (the sleeps of the exponential backoff do not affect the
value). -/
def run_ollama_tries (attempt : ℕ → Option String) : ℕ → ℕ → Option String
  | _, 0 => none
  | i, n + 1 =>
    match attempt i with
    | some r => some r
    | none => run_ollama_tries attempt (i + 1) n

def run_ollama (attempt : ℕ → Option String) : Option String :=
  run_ollama_tries attempt 0 2

/-! ### Fingerprinting (`mail_ai_local._normalize_text` / `make_fp`) -/

/-- NFKD decomposition with combining marks removed, per character, for the
Latin-1 letters this code base can meet (the inputs are lower-cased first,
so only lowercase letters need decompositions; letters with no canonical
decomposition, such as `ø` and `æ`, pass through, as under
`unicodedata`). -/
def nfkdBase (c : Char) : List Char :=
  let n := c.toNat
  if n = 224 ∨ n = 225 ∨ n = 226 ∨ n = 227 ∨ n = 228 ∨ n = 229 then ['a']
  else if n = 231 then ['c']
  else if 232 ≤ n ∧ n ≤ 235 then ['e']
  else if 236 ≤ n ∧ n ≤ 239 then ['i']
  else if n = 241 then ['n']
  else if 242 ≤ n ∧ n ≤ 246 then ['o']
  else if 249 ≤ n ∧ n ≤ 252 then ['u']
  else if n = 253 ∨ n = 255 then ['y']
  else [c]

def nfkd_strip (s : String) : String := String.mk ((s.toList.map nfkdBase).flatten)

/-- Models `re.sub(r'\s+', ' ', s)`: collapse every whitespace run to one space. -/
def collapseWSGo : ℕ → List Char → List Char
  | 0, _ => []
  | _ + 1, [] => []
  | n + 1, c :: rest =>
    if pySpace c then ' ' :: collapseWSGo n (rest.dropWhile pySpace)
    else c :: collapseWSGo n rest

def collapseWS (s : String) : String := String.mk (collapseWSGo s.toList.length s.toList)

/-- Models `mail_ai_local._normalize_text`: lower-case, strip diacritics via NFKD,
collapse whitespace runs, trim; `None` is treated as the empty string. -/
def normalize_text (s : Option String) : String :=
  pyStrip (collapseWS (nfkd_strip (py_lower (s.getD ""))))

/-- A character of the class `[\w\.-]` of `EMAIL_RE` (`\w` approximated by
ASCII word characters; no rule or claim input uses non-ASCII word
characters). -/
def isWordChar (c : Char) : Bool := c.isAlphanum || c = '_'

def emailChar (c : Char) : Bool := isWordChar c || c = '.' || c = '-'

/-- The backtracking step of `[\w\.-]+@([\w\.-]+\.\w+ ...)`: in the maximal
character run after the `@`, the greedy first group backtracks to the last
dot that is followed by a word character; the match then extends over the
maximal word run after that dot.  Returns the consumed part of the run. -/
def lastDotSplit (run2 : List Char) : Option (List Char) :=
  match ((List.range run2.length).filter
      (fun j => decide (1 ≤ j) && run2.getD j ' ' = '.' && isWordChar (run2.getD (j + 1) ' '))).getLast? with
  | some j => some (run2.take (j + 1) ++ (run2.drop (j + 1)).takeWhile isWordChar)
  | none => none

/-- A match of `EMAIL_RE = [\w\.-]+@[\w\.-]+\.\w+` starting at this
position: the maximal run before the cursor position is the first group
only when the position is a run start, which the scanning driver
guarantees by trying every position left to right. -/
def emailMatchAt (cs : List Char) : Option (String × List Char) :=
  let run1 := cs.takeWhile emailChar
  if run1.isEmpty then none
  else
    match cs.drop run1.length with
    | '@' :: rest =>
      let run2 := rest.takeWhile emailChar
      match lastDotSplit run2 with
      | some consumed => some (String.mk (run1 ++ '@' :: consumed), rest.drop consumed.length)
      | none => none
    | _ => none

/-- Models `EMAIL_RE.findall(address)`: non-overlapping matches, scanning left to
right and resuming after each match. -/
def findAllEmails : ℕ → List Char → List String
  | 0, _ => []
  | _ + 1, [] => []
  | n + 1, cs@(_ :: rest) =>
    match emailMatchAt cs with
    | some (m, after) => m :: findAllEmails n after
    | none => findAllEmails n rest

/-- Models `mail_ai_local.extract_email`: last address-like token of the header,
lower-cased; `None`/empty input gives `None`. -/
def extract_email (address : Option String) : Option String :=
  match address with
  | none => none
  | some a =>
    if a = "" then none
    else
      match (findAllEmails a.toList.length a.toList).getLast? with
      | some e => some (py_lower e)
      | none => none

/-! SHA-1 over natural numbers (every word is reduced `% 2 ^ 32`), applied
to the UTF-8 bytes of the fingerprint key, digest rendered as lowercase
hex — `hashlib.sha1(key.encode('utf-8')).hexdigest()`. -/

def w32 (x : ℕ) : ℕ := x % 4294967296

def rotl (k x : ℕ) : ℕ := w32 ((x <<< k) ||| (w32 x >>> (32 - k)))

def sha1Pad (msg : List ℕ) : List ℕ :=
  let bitLen := 8 * msg.length
  let zeros := (55 + 64 - msg.length % 64) % 64
  msg ++ [128] ++ List.replicate zeros 0 ++
    (List.range 8).map (fun i => bitLen >>> (8 * (7 - i)) % 256)

def bytesToWords : List ℕ → List ℕ
  | a :: b :: c :: d :: rest => (a <<< 24 ||| b <<< 16 ||| c <<< 8 ||| d) :: bytesToWords rest
  | _ => []

def sha1Extend (w : List ℕ) : ℕ → List ℕ
  | 0 => w
  | n + 1 =>
    let t := w.length
    let x := rotl 1 ((w.getD (t - 3) 0) ^^^ (w.getD (t - 8) 0) ^^^ (w.getD (t - 14) 0) ^^^ (w.getD (t - 16) 0))
    sha1Extend (w ++ [x]) n

def sha1F (t b c d : ℕ) : ℕ :=
  if t < 20 then (b &&& c) ||| ((w32 (4294967295 - b)) &&& d)
  else if t < 40 then b ^^^ c ^^^ d
  else if t < 60 then (b &&& c) ||| (b &&& d) ||| (c &&& d)
  else b ^^^ c ^^^ d

def sha1K (t : ℕ) : ℕ :=
  if t < 20 then 1518500249
  else if t < 40 then 1859775393
  else if t < 60 then 2400959708
  else 3395469782

def sha1Round (st : ℕ × ℕ × ℕ × ℕ × ℕ) (tw : ℕ × ℕ) : ℕ × ℕ × ℕ × ℕ × ℕ :=
  let (a, b, c, d, e) := st
  let (t, wt) := tw
  let tmp := w32 (rotl 5 a + sha1F t b c d + e + sha1K t + wt)
  (tmp, a, rotl 30 b, c, d)

def sha1Block (h : ℕ × ℕ × ℕ × ℕ × ℕ) (block : List ℕ) : ℕ × ℕ × ℕ × ℕ × ℕ :=
  let w := sha1Extend (bytesToWords block) 64
  let (h0, h1, h2, h3, h4) := h
  let (a, b, c, d, e) :=
    (((List.range 80).zip w).foldl sha1Round (h0, h1, h2, h3, h4))
  (w32 (h0 + a), w32 (h1 + b), w32 (h2 + c), w32 (h3 + d), w32 (h4 + e))

def chunks64 : ℕ → List ℕ → List (List ℕ)
  | 0, _ => []
  | _ + 1, [] => []
  | n + 1, l => l.take 64 :: chunks64 n (l.drop 64)

def hexChar (n : ℕ) : Char := if n < 10 then Char.ofNat (48 + n) else Char.ofNat (87 + n)

def toHex8 (x : ℕ) : String :=
  String.mk ((List.range 8).map (fun i => hexChar (x >>> (4 * (7 - i)) % 16)))

def sha1_hex (s : String) : String :=
  let bytes := (s.toUTF8.toList.map (fun b => b.toNat))
  let padded := sha1Pad bytes
  let (h0, h1, h2, h3, h4) :=
    (chunks64 (padded.length / 64 + 1) padded).foldl sha1Block
      (1732584193, 4023233417, 2562383102, 271733878, 3285377520)
  toHex8 h0 ++ toHex8 h1 ++ toHex8 h2 ++ toHex8 h3 ++ toHex8 h4

/-- The pre-hash fingerprint key `f"{email}|{subj}"` of
`mail_ai_local.make_fp`. -/
def make_fp_key (from_addr subject : Option String) : String :=
  ((extract_email from_addr).getD "") ++ "|" ++ normalize_text subject

/-- Models `mail_ai_local.make_fp`: SHA-1 hex digest of the normalized key. -/
def make_fp (from_addr subject : Option String) : String :=
  sha1_hex (make_fp_key from_addr subject)

/-! ### Label fusing (`mail_ai_local.summarize_batch`, lines 544-553)

`labels_list` is the list of labels recovered from the oracle; `labs_h` is
the comma-joined string the heuristic matcher returned for the message.
The heuristic string is consulted only when the oracle recovered no
labels, and the result is capped at 5 (`labels_list[:5]`).  (A string-typed
`labels` value from a strict parse would be sliced and joined character by
character in Python; the claims only concern list-typed labels, which is
what the salvage stage always produces.) -/

def fuse_labels (labels_list : List String) (labs_h : String) : List String :=
  let ll :=
    if labels_list.isEmpty then
      if labs_h ≠ "" then ((pySplit labs_h ',').map pyStrip).filter (fun x => x ≠ "") else []
    else labels_list
  ll.take 5

def labels_str_of (labels_list : List String) (labs_h : String) : String :=
  joinSep ", " (fuse_labels labels_list labs_h)

/-! ### Rows, dedup propagation and the processing queries -/

/-- One row of the `emails` table, restricted to the columns the claims
touch; `Option` is SQL `NULL`. -/
structure EmailRow where
  fp : String
  body : Option String
  summary : Option String
  auto_labels : Option String
  ai_decision : Option String
deriving DecidableEq

/-- Models `COALESCE(col, ?)` with a non-NULL bound parameter. -/
def coalesce (old : Option String) (v : String) : String := old.getD v

/-- The propagation `UPDATE` of `summarize_batch` (lines 574-579) applied
to one row: rows sharing the fingerprint get `summary` and `auto_labels`
filled only where they are NULL. -/
def propagate_row (fpv : String) (summ labs : String) (r : EmailRow) : EmailRow :=
  if r.fp = fpv then
    { r with summary := some (coalesce r.summary summ),
             auto_labels := some (coalesce r.auto_labels labs) }
  else r

/-- The whole-table effect of the propagation statement. -/
def propagate_group (rows : List EmailRow) (fpv : String) (summ labs : String) : List EmailRow :=
  rows.map (propagate_row fpv summ labs)

/-- The propagation `UPDATE` of `auto_label` (line 410): only
`auto_labels`, same `COALESCE` discipline. -/
def propagate_labels_row (fpv : String) (labs : String) (r : EmailRow) : EmailRow :=
  if r.fp = fpv then { r with auto_labels := some (coalesce r.auto_labels labs) } else r

/-- Models `summary IS NULL OR summary = ''` — the summary part of the
`summarize_batch` selection (lines 468-475). -/
def summary_unset_or_empty (r : EmailRow) : Bool :=
  r.summary == none || r.summary == some ""

/-- The full `summarize_batch` selection condition: unprocessed summary and
`length(body) >= min_chars` (`length(NULL)` is NULL, which never
compares). -/
def needs_summary (r : EmailRow) (min_chars : ℕ) : Bool :=
  summary_unset_or_empty r &&
    (match r.body with
     | some b => decide (min_chars ≤ b.length)
     | none => false)

/-- Models `ai_decision IS NULL OR ai_decision = ''` — the `decide_ai` selection
(lines 151-157). -/
def needs_ai_decision (r : EmailRow) : Bool :=
  r.ai_decision == none || r.ai_decision == some ""

/-- Models `auto_labels IS NULL OR auto_labels = ''` — the `auto_label` selection
(line 395). -/
def labels_unset_or_empty (r : EmailRow) : Bool :=
  r.auto_labels == none || r.auto_labels == some ""

/-- A pair of always-matching rules used to exercise the first-match-wins
statement on a concrete list. -/
def wrule1 : OverrideRule :=
  { fromMatch := fun _ => true, subjMatch := fun _ => true, decision := "keep", reason := "w-first" }

def wrule2 : OverrideRule :=
  { fromMatch := fun _ => true, subjMatch := fun _ => true, decision := "delete", reason := "w-second" }

/-! ## Helper lemmas -/

theorem scanRules_first (pre : List OverrideRule) (r : OverrideRule) (post : List OverrideRule)
    (f s curr : String)
    (hpre : ∀ r2 ∈ pre, ¬ (r2.fromMatch f && r2.subjMatch s) = true)
    (hr : (r.fromMatch f && r.subjMatch s) = true) :
    scanRules (pre ++ r :: post) f s curr = (r.decision, some r.reason) := by
  induction pre with
  | nil => simp [scanRules, hr]
  | cons a l ih =>
    have ha := hpre a (List.mem_cons_self a l)
    simp only [List.cons_append, scanRules]
    rw [if_neg ha]
    exact ih fun r2 hr2 => hpre r2 (List.mem_cons_of_mem a hr2)

theorem scanRules_none (rules : List OverrideRule) (f s curr : String)
    (h : ∀ r ∈ rules, ¬ (r.fromMatch f && r.subjMatch s) = true) :
    scanRules rules f s curr = (curr, none) := by
  induction rules with
  | nil => rfl
  | cons a l ih =>
    simp only [scanRules]
    rw [if_neg (h a (List.mem_cons_self a l))]
    exact ih fun r hr => h r (List.mem_cons_of_mem a hr)

theorem scanRules_cases (rules : List OverrideRule) (f s curr : String) :
    scanRules rules f s curr = (curr, none) ∨
      ∃ r ∈ rules, (r.fromMatch f && r.subjMatch s) = true ∧
        scanRules rules f s curr = (r.decision, some r.reason) := by
  induction rules with
  | nil => exact Or.inl rfl
  | cons a l ih =>
    by_cases h : (a.fromMatch f && a.subjMatch s) = true
    · exact Or.inr ⟨a, List.mem_cons_self a l, h, by simp [scanRules, h]⟩
    · have he : scanRules (a :: l) f s curr = scanRules l f s curr := by
        simp only [scanRules]; rw [if_neg h]
      rcases ih with h1 | ⟨r, hr, hm, he2⟩
      · exact Or.inl (he.trans h1)
      · exact Or.inr ⟨r, List.mem_cons_of_mem a hr, hm, he.trans he2⟩

theorem conf_gate_fst_safe (d : String) (c t : ℚ) (r : String) :
    ¬ ((conf_gate d c t r).1 = "delete" ∧ c < t) := by
  unfold conf_gate
  split_ifs with h
  · rintro ⟨h1, _⟩; exact (by decide : ¬ ("archive" : String) = "delete") h1
  · rintro ⟨h1, h2⟩; exact h ⟨h1, h2⟩

theorem conf_gate_not_delete (d : String) (c t : ℚ) (r : String) (h : d ≠ "delete") :
    conf_gate d c t r = (d, r) := by
  unfold conf_gate
  rw [if_neg fun hc => h hc.1]

theorem override_rules_reason_ne (r : OverrideRule) (hr : r ∈ USER_OVERRIDE_RULES) :
    r.reason ≠ "" := by
  simp only [USER_OVERRIDE_RULES, List.mem_cons, List.not_mem_nil, or_false] at hr
  rcases hr with rfl | rfl | rfl | rfl | rfl | rfl | rfl | rfl | rfl <;> decide

theorem finish_reason_some (g : String × String) (a1 o : String)
    (ho : o ≠ "") (hne : g.1 ≠ a1) :
    finish_reason g (a1, some o) = pyStrip (g.2 ++ " | " ++ o) := by
  show (if o ≠ "" ∧ g.1 ≠ a1 then pyStrip (g.2 ++ " | " ++ o) else g.2)
    = pyStrip (g.2 ++ " | " ++ o)
  rw [if_pos ⟨ho, hne⟩]

theorem finish_reason_skip (g : String × String) (a1 : String) :
    finish_reason g (a1, none) = g.2 := rfl

/-- Every entry the tolerant fallback can assemble carries one of its four
keys; in particular it never carries `reason`. -/
theorem tolerant_list_keys (t : String) :
    ∀ kv ∈ tolerant_list t,
      kv.1 = "decision" ∨ kv.1 = "confidence" ∨ kv.1 = "summary" ∨ kv.1 = "category" := by
  intro kv hkv
  unfold tolerant_list at hkv
  rcases List.mem_append.mp hkv with h3 | h4
  · rcases List.mem_append.mp h3 with h5 | h6
    · rcases List.mem_append.mp h5 with h7 | h8
      · cases hx : salvDecision t <;> rw [hx] at h7 <;> simp at h7
        simp [h7]
      · cases hx : salvConfidence t <;> rw [hx] at h8 <;> simp at h8
        simp [h8]
    · cases hx : salvSummary t <;> rw [hx] at h6 <;> simp at h6
      simp [h6]
  · cases hx : salvCategory t <;> rw [hx] at h4 <;> simp at h4
    simp [h4]

/-- When the override engine changes the decision, it always reports a
non-empty override reason (the short-circuit reason or the reason of the
matching entry of `USER_OVERRIDE_RULES`, all of which are non-empty). -/
theorem apply_override_changed (frm sub : Option String) (curr cat : String)
    (hne : (apply_user_overrides frm sub curr cat).1 ≠ curr) :
    ∃ o, o ≠ "" ∧ (apply_user_overrides frm sub curr cat).2 = some o := by
  unfold apply_user_overrides applyUserOverridesWith at *
  by_cases hsc : (strContains (py_lower cat) "newsletter" ||
      strContains (py_lower cat) "promotion" ||
      strContains (py_lower cat) "promotions") = true
  · rw [if_pos hsc] at *
    exact ⟨"rule: ia category=promo/newsletter", by decide, rfl⟩
  · rw [if_neg hsc] at *
    rcases scanRules_cases USER_OVERRIDE_RULES (py_lower (frm.getD ""))
        (py_lower (sub.getD "")) curr with h1 | ⟨r, hr, _, he⟩
    · rw [h1] at hne; exact absurd rfl hne
    · rw [he] at *
      exact ⟨r.reason, override_rules_reason_ne r hr, rfl⟩

/-! ## Claim theorems -/

/-- Claim C4: for every sender, subject, current decision, and category
text, if the category text contains "newsletter", "promotion", or
"promotions" as a case-insensitive substring (the source's check on the
lower-cased text), the override engine immediately returns `delete` with
the fixed reason, bypassing the ordered override rule list regardless of
its contents, the oracle decision, or any rule that would otherwise
match. -/
theorem c4_category_short_circuit (rules : List OverrideRule) (frm sub : Option String)
    (curr cat : String)
    (h : strContains (py_lower cat) "newsletter" = true ∨
         strContains (py_lower cat) "promotion" = true ∨
         strContains (py_lower cat) "promotions" = true) :
    applyUserOverridesWith rules frm sub curr cat
      = ("delete", some "rule: ia category=promo/newsletter") := by
  unfold applyUserOverridesWith
  rcases h with h | h | h <;> simp [h]

theorem c4_witness :
    (strContains (py_lower "IA: Newsletter hebdo") "newsletter" = true) ∧
    applyUserOverridesWith USER_OVERRIDE_RULES (some "friend@example.org") (some "hi") "keep"
        "IA: Newsletter hebdo"
      = ("delete", some "rule: ia category=promo/newsletter") :=
  ⟨by decide,
   c4_category_short_circuit USER_OVERRIDE_RULES (some "friend@example.org") (some "hi") "keep"
     "IA: Newsletter hebdo" (Or.inl (by decide))⟩

/-- Claim C5: in the decision resolver, if the (possibly coerced) decision
is `delete` and its confidence is strictly below the threshold, the
decision becomes `archive` and the reason gains an appended note recording
the downgrade and the threshold value; if the confidence is greater than
or equal to the threshold, the gate leaves the decision unchanged. -/
theorem c5_confidence_gate (d : String) (c t : ℚ) (r : String) :
    (d = "delete" → c < t →
      conf_gate d c t r = ("archive", pyStrip (r ++ " | downgraded: conf<" ++ floatRepr t))) ∧
    (t ≤ c → conf_gate d c t r = (d, r)) := by
  constructor
  · intro h1 h2
    unfold conf_gate
    rw [if_pos ⟨h1, h2⟩]
  · intro h1
    unfold conf_gate
    rw [if_neg fun hc => absurd hc.2 (not_lt.mpr h1)]

theorem c5_witness :
    ((("delete" : String) = "delete") ∧ mkRat 1 2 < mkRat 7 10 ∧ mkRat 7 10 ≤ mkRat 9 10) ∧
    conf_gate "delete" (mkRat 1 2) (mkRat 7 10) "junk"
      = ("archive", "junk | downgraded: conf<0.7") ∧
    conf_gate "delete" (mkRat 9 10) (mkRat 7 10) "ok" = ("delete", "ok") :=
  ⟨⟨rfl, by decide, by decide⟩,
   ((c5_confidence_gate "delete" (mkRat 1 2) (mkRat 7 10) "junk").1 rfl (by decide)).trans
     (by decide),
   (c5_confidence_gate "delete" (mkRat 9 10) (mkRat 7 10) "ok").2 (by decide)⟩

/-- Claim C9: when the category-text short-circuit does not fire, the
override engine scans the ordered rule list and returns the forced
decision and reason of the first entry whose sender-pattern matches the
lowercased sender and whose subject-pattern matches the lowercased
subject; for any two rules that would both match, only the first rule's
decision is applied; if no rule matches, the input decision is returned
unchanged.  (Matching is a total boolean function of the two strings, so
it never raises.) -/
theorem c9_override_list_first_match (rules : List OverrideRule) (frm sub : Option String)
    (curr cat : String)
    (hsc : strContains (py_lower cat) "newsletter" = false ∧
           strContains (py_lower cat) "promotion" = false ∧
           strContains (py_lower cat) "promotions" = false) :
    (∀ pre r post, rules = pre ++ r :: post →
      (∀ r2 ∈ pre,
        ¬ (r2.fromMatch (py_lower (frm.getD "")) && r2.subjMatch (py_lower (sub.getD ""))) = true) →
      (r.fromMatch (py_lower (frm.getD "")) && r.subjMatch (py_lower (sub.getD ""))) = true →
      applyUserOverridesWith rules frm sub curr cat = (r.decision, some r.reason)) ∧
    ((∀ r ∈ rules,
        ¬ (r.fromMatch (py_lower (frm.getD "")) && r.subjMatch (py_lower (sub.getD ""))) = true) →
      applyUserOverridesWith rules frm sub curr cat = (curr, none)) := by
  have hif : applyUserOverridesWith rules frm sub curr cat
      = scanRules rules (py_lower (frm.getD "")) (py_lower (sub.getD "")) curr := by
    unfold applyUserOverridesWith
    rw [if_neg]
    rw [hsc.1, hsc.2.1, hsc.2.2]
    decide
  refine ⟨fun pre r post hrl hpre hr => ?_, fun hnone => ?_⟩
  · rw [hif, hrl]
    exact scanRules_first pre r post _ _ _ hpre hr
  · rw [hif]
    exact scanRules_none rules _ _ _ hnone

theorem c9_witness :
    ((wrule1.fromMatch (py_lower "a@b.c") && wrule1.subjMatch (py_lower "s")) = true ∧
     (wrule2.fromMatch (py_lower "a@b.c") && wrule2.subjMatch (py_lower "s")) = true) ∧
    applyUserOverridesWith [wrule1, wrule2] (some "a@b.c") (some "s") "archive" "misc"
      = ("keep", some "w-first") :=
  ⟨⟨by decide, by decide⟩,
   (c9_override_list_first_match [wrule1, wrule2] (some "a@b.c") (some "s") "archive" "misc"
       ⟨by decide, by decide, by decide⟩).1
     [] wrule1 [wrule2] rfl (fun r2 h => absurd h (List.not_mem_nil r2)) (by decide)⟩

/-- Claim C7: dedup propagation copies a decided representative's values
only into fields of sibling messages (those sharing its fingerprint) that
are still unset, and never overwrites a populated field: for every group
member whose field already holds a value, propagating a different value
from the representative leaves that field unchanged.  Stated for the two
fields the propagation statements write (`summary` and `auto_labels`), for
both the `summarize_batch` and the `auto_label` propagation. -/
theorem c7_propagation_no_overwrite (r : EmailRow) (fpv summ labs : String) :
    (∀ x, r.summary = some x → (propagate_row fpv summ labs r).summary = some x) ∧
    (∀ x, r.auto_labels = some x → (propagate_row fpv summ labs r).auto_labels = some x) ∧
    (r.fp = fpv → r.summary = none → (propagate_row fpv summ labs r).summary = some summ) ∧
    (r.fp = fpv → r.auto_labels = none → (propagate_row fpv summ labs r).auto_labels = some labs) ∧
    (r.fp ≠ fpv → propagate_row fpv summ labs r = r) ∧
    (∀ x, r.auto_labels = some x → (propagate_labels_row fpv labs r).auto_labels = some x) ∧
    (∀ rows : List EmailRow,
      propagate_group rows fpv summ labs = rows.map (propagate_row fpv summ labs)) := by
  refine ⟨fun x hx => ?_, fun x hx => ?_, fun hfp hx => ?_, fun hfp hx => ?_,
    fun hne => ?_, fun x hx => ?_, fun rows => rfl⟩
  · unfold propagate_row
    split
    · simp [coalesce, hx]
    · exact hx
  · unfold propagate_row
    split
    · simp [coalesce, hx]
    · exact hx
  · unfold propagate_row
    rw [if_pos hfp]
    simp [coalesce, hx]
  · unfold propagate_row
    rw [if_pos hfp]
    simp [coalesce, hx]
  · unfold propagate_row
    rw [if_neg hne]
  · unfold propagate_labels_row
    split
    · simp [coalesce, hx]
    · exact hx

theorem c7_witness :
    (({ fp := "f1", body := some "corpus", summary := some "keep this summary",
        auto_labels := none, ai_decision := some "keep" } : EmailRow).summary
        = some "keep this summary") ∧
    (propagate_row "f1" "other summary" "Promo"
        { fp := "f1", body := some "corpus", summary := some "keep this summary",
          auto_labels := none, ai_decision := some "keep" }).summary
      = some "keep this summary" ∧
    (propagate_row "f1" "other summary" "Promo"
        { fp := "f1", body := some "corpus", summary := some "keep this summary",
          auto_labels := none, ai_decision := some "keep" }).auto_labels
      = some "Promo" :=
  ⟨rfl,
   (c7_propagation_no_overwrite
       { fp := "f1", body := some "corpus", summary := some "keep this summary",
         auto_labels := none, ai_decision := some "keep" } "f1" "other summary" "Promo").1
     "keep this summary" rfl,
   (c7_propagation_no_overwrite
       { fp := "f1", body := some "corpus", summary := some "keep this summary",
         auto_labels := none, ai_decision := some "keep" } "f1" "other summary" "Promo").2.2.2.1
     rfl rfl⟩

/-- Claim C8: fingerprint computation is a pure total function — the same
inputs always give the same key; an absent sender or subject is treated as
the empty string rather than an error; and subjects that normalize alike
(case, diacritics, whitespace runs) give equal fingerprints for the same
sender. -/
theorem c8_fingerprint_pure (f s t : Option String) :
    (make_fp f s = make_fp f s) ∧
    (make_fp none s = make_fp (some "") s) ∧
    (make_fp f none = make_fp f (some "")) ∧
    (normalize_text s = normalize_text t → make_fp f s = make_fp f t) := by
  refine ⟨rfl, rfl, rfl, fun h => ?_⟩
  unfold make_fp make_fp_key
  rw [h]

theorem c8_witness :
    (normalize_text (some "Flash Sale!!") = normalize_text (some "flash   sale!!") ∧
     normalize_text (some "Réduction  été") = normalize_text (some "reduction ete")) ∧
    (make_fp (some "promo@shop.example.com") (some "Flash Sale!!")
       = make_fp (some "promo@shop.example.com") (some "flash   sale!!") ∧
     make_fp (some "promo@shop.example.com") (some "Réduction  été")
       = make_fp (some "promo@shop.example.com") (some "reduction ete")) :=
  ⟨⟨by decide, by decide⟩,
   (c8_fingerprint_pure (some "promo@shop.example.com") (some "Flash Sale!!")
       (some "flash   sale!!")).2.2.2 (by decide),
   (c8_fingerprint_pure (some "promo@shop.example.com") (some "Réduction  été")
       (some "reduction ete")).2.2.2 (by decide)⟩

/-- Claim C10 (implicit): dedup propagation fills a sibling's field only
when that field is NULL — a field holding the empty string counts as
populated and never receives the representative's value — even though the
processing queries treat empty-string fields as unprocessed (`IS NULL OR =
''`), so an empty-string field is re-queued for processing but permanently
skipped by propagation. -/
theorem c10_empty_string_requeued_not_propagated (r : EmailRow) (fpv summ labs : String) (m : ℕ) :
    (r.summary = some "" →
      (propagate_row fpv summ labs r).summary = some "" ∧
      summary_unset_or_empty r = true ∧
      (summ ≠ "" → (propagate_row fpv summ labs r).summary ≠ some summ)) ∧
    (r.auto_labels = some "" →
      (propagate_row fpv summ labs r).auto_labels = some "" ∧
      (propagate_labels_row fpv labs r).auto_labels = some "" ∧
      labels_unset_or_empty r = true) ∧
    (r.ai_decision = some "" → needs_ai_decision r = true) ∧
    (∀ b, r.summary = some "" → r.body = some b → m ≤ b.length → needs_summary r m = true) := by
  refine ⟨fun hs => ?_, fun hl => ?_, fun hd => ?_, fun b hs hb hm => ?_⟩
  · have h1 : (propagate_row fpv summ labs r).summary = some "" := by
      unfold propagate_row coalesce
      by_cases hfp : r.fp = fpv
      · simp [if_pos hfp, hs]
      · simp [if_neg hfp, hs]
    exact ⟨h1, by simp [summary_unset_or_empty, hs], fun hne => by rw [h1]; simp [Ne.symm hne]⟩
  · refine ⟨?_, ?_, by simp [labels_unset_or_empty, hl]⟩
    · unfold propagate_row
      split
      · simp [coalesce, hl]
      · exact hl
    · unfold propagate_labels_row
      split
      · simp [coalesce, hl]
      · exact hl
  · simp [needs_ai_decision, hd]
  · simp [needs_summary, summary_unset_or_empty, hs, hb, hm]

theorem c10_witness :
    (({ fp := "f2", body := some "a body of more than forty characters in total",
        summary := some "", auto_labels := some "", ai_decision := some "" } : EmailRow).summary
        = some "") ∧
    (propagate_row "f2" "fresh summary" "Labels"
        { fp := "f2", body := some "a body of more than forty characters in total",
          summary := some "", auto_labels := some "", ai_decision := some "" }).summary
      = some "" ∧
    needs_summary
        { fp := "f2", body := some "a body of more than forty characters in total",
          summary := some "", auto_labels := some "", ai_decision := some "" } 40 = true :=
  ⟨rfl,
   ((c10_empty_string_requeued_not_propagated
       { fp := "f2", body := some "a body of more than forty characters in total",
         summary := some "", auto_labels := some "", ai_decision := some "" }
       "f2" "fresh summary" "Labels" 40).1 rfl).1,
   (c10_empty_string_requeued_not_propagated
       { fp := "f2", body := some "a body of more than forty characters in total",
         summary := some "", auto_labels := some "", ai_decision := some "" }
       "f2" "fresh summary" "Labels" 40).2.2.2
     "a body of more than forty characters in total" rfl rfl (by decide)⟩

/-- Claim C6, counterexample: the final label list is NOT deduplicated —
duplicated labels recovered from the oracle survive the `[:5]` cap, so the
final set can hold duplicates, contrary to the claim. -/
theorem c6_counterexample :
    fuse_labels ["promo", "promo", "misc"] "" = ["promo", "promo", "misc"] ∧
    ¬ List.Nodup ["promo", "promo", "misc"] :=
  ⟨rfl, by decide⟩

/-- Claim C6, amended: oracle-recovered labels take priority when present
and non-empty, heuristic labels are used only when the oracle recovered
none, and the result is capped at 5 entries in first-seen order — but the
cap performs no deduplication: duplicates among the recovered labels are
preserved.  Eight distinct recovered labels still yield exactly the first
five, in order, without duplicates. -/
theorem c6_label_cap_first_seen (ls : List String) (h : String) :
    (ls ≠ [] → fuse_labels ls h = ls.take 5) ∧
    (fuse_labels ls h).length ≤ 5 ∧
    (fuse_labels [] h = (((pySplit h ',').map pyStrip).filter (fun x => x ≠ "")).take 5) ∧
    (ls ≠ [] → ls.Nodup → (fuse_labels ls h).Nodup) := by
  have hne : ls ≠ [] → fuse_labels ls h = ls.take 5 := by
    intro hn
    unfold fuse_labels
    rw [if_neg (by simpa using hn)]
  refine ⟨hne, ?_, ?_, fun hn hnd => ?_⟩
  · unfold fuse_labels
    exact List.length_take_le 5 _
  · unfold fuse_labels
    by_cases hh : h = ""
    · subst hh; decide
    · simp [hh]
  · rw [hne hn]
    exact (List.take_sublist 5 ls).nodup hnd

theorem c6_witness :
    ((["l1", "l2", "l3", "l4", "l5", "l6", "l7", "l8"] : List String) ≠ [] ∧
     (["l1", "l2", "l3", "l4", "l5", "l6", "l7", "l8"] : List String).Nodup) ∧
    fuse_labels ["l1", "l2", "l3", "l4", "l5", "l6", "l7", "l8"] ""
      = ["l1", "l2", "l3", "l4", "l5"] ∧
    (fuse_labels ["l1", "l2", "l3", "l4", "l5", "l6", "l7", "l8"] "").Nodup :=
  ⟨⟨by decide, by decide⟩,
   ((c6_label_cap_first_seen ["l1", "l2", "l3", "l4", "l5", "l6", "l7", "l8"] "").1
       (by decide)).trans (by decide),
   (c6_label_cap_first_seen ["l1", "l2", "l3", "l4", "l5", "l6", "l7", "l8"] "").2.2.2
     (by decide) (by decide)⟩

/-- Claim C1, counterexample: with threshold 0.7, an oracle answer of
`keep` at confidence 0.2 for a sender matching the quora override rule is
persisted as a `delete` at confidence 0.2 — a low-confidence delete —
because the override stage runs after the confidence gate and is not
re-gated. -/
theorem c1_counterexample :
    process_message (some "\"decision\": \"keep\", \"confidence\": 0.2")
        (some "digest@quora.com") (some "hello") (mkRat 7 10)
      = some { decision := "delete", reason := "| rule: quora digest", conf := mkRat 1 5,
               cat := "", summ := none } ∧
    mkRat 1 5 < mkRat 7 10 :=
  ⟨by decide, by decide⟩

/-- Claim C1, amended: the confidence gate runs before the user overrides,
so the pre-override decision is never a low-confidence delete, but the
override stage (category short-circuit or a matching rule) may force
`delete` regardless of confidence.  Hence any persisted `delete` whose
confidence is strictly below the threshold carries a non-empty override
reason appended (with the `" | "` separator and final strip) to the
pre-override reason. -/
theorem c1_low_conf_delete_only_by_override (oracle : Option String) (frm sub : Option String)
    (t : ℚ) (row : PersistedRow)
    (h : process_message oracle frm sub t = some row)
    (hd : row.decision = "delete") (hc : row.conf < t) :
    ∃ r1 o, o ≠ "" ∧ row.reason = pyStrip (r1 ++ " | " ++ o) := by
  rcases oracle with _ | resp
  · exact absurd h (by simp [process_message])
  · simp only [process_message] at h
    cases hf : fields_of (parse_response resp) with
    | none => rw [hf] at h; exact absurd h (by simp)
    | some f =>
      rw [hf] at h
      simp only [Option.some.injEq] at h
      subst h
      simp only [finish_row] at hd hc ⊢
      have hsafe := conf_gate_fst_safe f.decision f.conf t f.reason
      have hg1 : (conf_gate f.decision f.conf t f.reason).1 ≠ "delete" :=
        fun hx => hsafe ⟨hx, hc⟩
      have hchanged :
          (apply_user_overrides frm sub (conf_gate f.decision f.conf t f.reason).1 f.cat).1
            ≠ (conf_gate f.decision f.conf t f.reason).1 := by
        rw [hd]; exact fun hx => hg1 hx.symm
      obtain ⟨o, ho, h2⟩ := apply_override_changed frm sub _ f.cat hchanged
      refine ⟨(conf_gate f.decision f.conf t f.reason).2, o, ho, ?_⟩
      have hpair : apply_user_overrides frm sub (conf_gate f.decision f.conf t f.reason).1 f.cat
          = ((apply_user_overrides frm sub (conf_gate f.decision f.conf t f.reason).1 f.cat).1,
             some o) := by
        rw [← h2]
      rw [hpair]
      exact finish_reason_some _ _ _ ho fun hx => hchanged hx.symm

theorem c1_witness :
    ∃ r1 o, o ≠ "" ∧
      ({ decision := "delete", reason := "| rule: quora digest", conf := mkRat 1 5, cat := "",
         summ := none } : PersistedRow).reason = pyStrip (r1 ++ " | " ++ o) :=
  c1_low_conf_delete_only_by_override
    (some "\"decision\": \"keep\", \"confidence\": 0.2") (some "digest@quora.com")
    (some "bonjour") (mkRat 7 10)
    { decision := "delete", reason := "| rule: quora digest", conf := mkRat 1 5, cat := "",
      summ := none }
    (by decide) rfl (by decide)

/-- Claim C2, counterexample: when every oracle attempt fails, the
per-message handler catches the re-raised exception and the loop moves on
— no `UPDATE` runs, so nothing (in particular not the archive/0.5/
"fallback" default) is recorded for the message. -/
theorem c2_counterexample :
    process_message (run_ollama (fun _ => none)) (some "alice@example.org") (some "hello")
      (mkRat 0 1) = none :=
  rfl

/-- Claim C2, amended: exhausting the 2 oracle attempts leaves the message
undecided — the row is not updated (it will be selected again on a later
run) and the batch continues.  The default decision (`archive`, confidence
0.5, reason "fallback") is recorded only when the oracle call succeeds but
returns text from which neither the strict parse nor the salvage recovers
anything (and, here, no override rule rewrites the default). -/
theorem c2_transport_failure_leaves_undecided (attempt : ℕ → Option String)
    (frm sub : Option String) (t : ℚ) (h : ∀ i, attempt i = none) :
    process_message (run_ollama attempt) frm sub t = none ∧
    (∀ resp, jsonLoads resp = none → salvage_json resp = none →
      apply_user_overrides frm sub "archive" "" = ("archive", none) →
      process_message (some resp) frm sub t
        = some { decision := "archive", reason := "fallback", conf := mkRat 1 2, cat := "",
                 summ := none }) := by
  constructor
  · have h2 : run_ollama attempt = none := by
      unfold run_ollama run_ollama_tries
      rw [h 0]
      simp only [run_ollama_tries]
      rw [h 1]
    rw [h2]
    rfl
  · intro resp h1 hsalv hov
    have hdata : parse_response resp = none := by
      unfold parse_response
      rw [h1, hsalv]
    have hg : conf_gate "archive" (mkRat 1 2) t "fallback" = ("archive", "fallback") :=
      conf_gate_not_delete _ _ _ _ (by decide)
    simp only [process_message, hdata, fields_of, finish_row, defaultFields, hg, hov,
      finish_reason]
    decide

theorem c2_witness :
    process_message (run_ollama (fun _ => none)) (some "bob@example.org") (some "greetings")
        (mkRat 3 10) = none ∧
    process_message (some "no json here") (some "bob@example.org") (some "greetings")
        (mkRat 3 10)
      = some { decision := "archive", reason := "fallback", conf := mkRat 1 2, cat := "",
               summ := none } :=
  ⟨(c2_transport_failure_leaves_undecided (fun _ => none) (some "bob@example.org")
      (some "greetings") (mkRat 3 10) (fun _ => rfl)).1,
   (c2_transport_failure_leaves_undecided (fun _ => none) (some "bob@example.org")
      (some "greetings") (mkRat 3 10) (fun _ => rfl)).2
     "no json here" rfl rfl (by decide)⟩

/-- Claim C3, counterexample: the tolerant fallback stage has no pattern
for `reason`, so a text carrying only a quoted `reason` field salvages
nothing at all, contrary to the claim that each present field among
decision/confidence/reason/summary/category is independently recovered. -/
theorem c3_counterexample :
    salvage_json "\"reason\": \"server said so\"" = none :=
  rfl

/-- Claim C3, amended: on input where the strict parse and the
brace-balancing retry both fail, `salvage_json` falls back to the
independent tolerant per-field patterns — a quoted `decision` lower-cased
on extraction, a numeric `confidence` parsed as a float and silently
discarded when unparseable, a quoted `summary`, and a bracketed `category`
list split into its quoted elements — but NOT `reason`, which has no
tolerant pattern; it returns the recovered subset and returns nothing only
when zero fields were extracted. -/
theorem c3_tolerant_salvage (resp : String) (hne : resp ≠ "")
    (hfail : ∀ chunk, braceChunk resp = some chunk → jsonLoads (balanceBraces chunk) = none) :
    salvage_json resp = tolerant_fields resp ∧
    (tolerant_fields resp = none ↔
      salvDecision resp = none ∧ salvConfidence resp = none ∧
      salvSummary resp = none ∧ salvCategory resp = none) ∧
    (∀ l, tolerant_fields resp = some (JVal.jobj l) →
      (∀ kv ∈ l, kv.1 = "decision" ∨ kv.1 = "confidence" ∨ kv.1 = "summary" ∨
        kv.1 = "category") ∧
      ∀ kv ∈ l, kv.1 ≠ "reason") ∧
    (∀ d, salvDecision resp = some d →
      ∃ l, tolerant_fields resp = some (JVal.jobj l) ∧ ("decision", JVal.jstr d) ∈ l) := by
  refine ⟨?_, ?_, ?_, ?_⟩
  · unfold salvage_json
    rw [if_neg hne]
    cases hbc : braceChunk resp with
    | none => rfl
    | some chunk => simp only [hfail chunk hbc]
  · cases hd : salvDecision resp <;> cases hc : salvConfidence resp <;>
      cases hs : salvSummary resp <;> cases hcat : salvCategory resp <;>
      simp [tolerant_fields, tolerant_list, hd, hc, hs, hcat]
  · intro l hl
    unfold tolerant_fields at hl
    by_cases hE : (tolerant_list resp).isEmpty
    · rw [if_pos hE] at hl
      exact absurd hl (by simp)
    · rw [if_neg hE] at hl
      simp only [Option.some.injEq, JVal.jobj.injEq] at hl
      subst hl
      refine ⟨tolerant_list_keys resp, fun kv hkv => ?_⟩
      rcases tolerant_list_keys resp kv hkv with h4 | h4 | h4 | h4 <;> simp [h4]
  · intro d hd
    have hl : tolerant_list resp
        = ("decision", JVal.jstr d) ::
          ((match salvConfidence resp with
            | some q => [("confidence", JVal.jnum q)]
            | none => []) ++
           (match salvSummary resp with
            | some s => [("summary", JVal.jstr s)]
            | none => []) ++
           (match salvCategory resp with
            | some xs => [("category", JVal.jarr (xs.map JVal.jstr))]
            | none => [])) := by
      unfold tolerant_list
      rw [hd]
      simp [List.append_assoc]
    refine ⟨tolerant_list resp, ?_, ?_⟩
    · unfold tolerant_fields
      rw [if_neg (by rw [hl]; simp)]
    · rw [hl]
      exact List.mem_cons_self _ _

theorem c3_witness :
    (("\"decision\": \"KEEP\" plus trailing prose" : String) ≠ "" ∧
     braceChunk "\"decision\": \"KEEP\" plus trailing prose" = none) ∧
    salvage_json "\"decision\": \"KEEP\" plus trailing prose"
      = tolerant_fields "\"decision\": \"KEEP\" plus trailing prose" ∧
    tolerant_fields "\"decision\": \"KEEP\" plus trailing prose"
      = some (JVal.jobj [("decision", JVal.jstr "keep")]) :=
  ⟨⟨by decide, rfl⟩,
   (c3_tolerant_salvage "\"decision\": \"KEEP\" plus trailing prose" (by decide)
       (fun chunk hch => Option.noConfusion
         ((rfl : braceChunk "\"decision\": \"KEEP\" plus trailing prose" = none).symm.trans
           hch))).1,
   rfl⟩

end MailAI
